import Mathlib

/-!
Verification development for the Cyrcos chord-diagram geometry engine.

The repository ships a README and a tutorial notebook; the geometry engine
itself (segment layout, ratio/angle addressing, path building, color
resolution, figure assembly) is specified in the design document.  All
definitions below are therefore modelled from the spec: angles and widths
are rational numbers of degrees, measured clockwise from 0 at the top of
the circle, and path geometry is recorded in polar form (angle, radius)
with radius 1 the outer circle.
-/

namespace Cyrcos

/-- Modelled from the spec: the error taxonomy of section 7 of the design
document (ConfigurationError, InvalidGeometryError, RangeError), standing in
for the missing error classes of the implementation. -/
inductive CyrcosError where
  | ConfigurationError
  | InvalidGeometryError
  | RangeError
  deriving DecidableEq, Repr

/-- Modelled from the spec: a circle segment (section 3), with its angular
span given by a start angle and a width in degrees, clockwise from top, and
an assigned display color. -/
structure Segment where
  start : ℚ
  width : ℚ
  color : String
  deriving DecidableEq, Repr, Inhabited

/-- The end angle of a segment's span. -/
def Segment.stop (s : Segment) : ℚ := s.start + s.width

/-- Membership of an angle in the half-open span the segment occupies. -/
def Segment.containsAngle (s : Segment) (a : ℚ) : Prop :=
  s.start ≤ a ∧ a < s.stop

/-- Modelled from the spec: the fixed display palette that segment colors
are cycled from (section 3); the concrete color values are irrelevant to the
geometry. -/
def palette : List String :=
  [("C0"), ("C1"), ("C2"), ("C3"), ("C4"), ("C5"), ("C6"), ("C7"), ("C8"), ("C9")]

/-- Color assigned to the i-th segment by cycling the palette. -/
def paletteColor (i : ℕ) : String := List.getD palette (i % palette.length) ("C0")

/-- Common segment width of a layout: available arc (360 − n·gap) divided
evenly among the n segments. -/
def segWidth (n : ℕ) (gap : ℚ) : ℚ := (360 - (n : ℚ) * gap) / (n : ℚ)

/-- The i-th segment of an n-segment layout with the given gap size:
it occupies the span starting at i·(width + gap) of width segWidth. -/
def mkSegment (n : ℕ) (gap : ℚ) (i : ℕ) : Segment :=
  { start := (i : ℚ) * (segWidth n gap + gap)
    width := segWidth n gap
    color := paletteColor i }

/-- Modelled from the spec: segment layout (section 4.1), standing in for the
missing layout routine of the implementation.  The available arc is
360 − n·gap_size; the call fails with a ConfigurationError when that arc is
not positive, and otherwise produces the n equal-width segments in index
order. -/
def layout (n : ℕ) (gap : ℚ) : Except CyrcosError (List Segment) :=
  if 360 - (n : ℚ) * gap ≤ 0 then Except.error CyrcosError.ConfigurationError
  else Except.ok ((List.range n).map (mkSegment n gap))

/-- Modelled from the spec: ratio-to-angle addressing (section 4.1), standing
in for the missing conversion of the implementation.  Ratio 1.0 is the start
of the segment and ratio 0.0 its end, so the angle decreases offset
r·width from the stop angle; a ratio outside [0,1] is a RangeError. -/
def ratio_to_angle (s : Segment) (r : ℚ) : Except CyrcosError ℚ :=
  if 0 ≤ r ∧ r ≤ 1 then Except.ok (s.stop - r * s.width)
  else Except.error CyrcosError.RangeError

/-- Modelled from the spec: angle-to-ratio addressing (section 4.1), the
exact algebraic inverse of ratio_to_angle, standing in for the missing
conversion of the implementation.  An angle outside the segment's span is a
RangeError; the span is taken closed at both ends so that the spec's
round-trip property holds for the whole ratio interval [0,1]. -/
def angle_to_ratio (s : Segment) (a : ℚ) : Except CyrcosError ℚ :=
  if s.start ≤ a ∧ a ≤ s.stop then Except.ok ((s.stop - a) / s.width)
  else Except.error CyrcosError.RangeError

/-- A point of path geometry in polar form: an angle in degrees clockwise
from top and a radius in figure-normalized coordinates (radius 1 = outer
circle). -/
structure PPoint where
  angle : ℚ
  radius : ℚ
  deriving DecidableEq, Repr

/-- The boundary point at radius 1 on the given angle. -/
def onCircle (a : ℚ) : PPoint := { angle := a, radius := 1 }

/-- Modelled from the spec: the tunable curvature constant of section 4.2 —
interior control points of a curved edge are pulled toward the center, to
this fraction of the outer radius. -/
def curvature : ℚ := 1 / 2

/-- The interior control point of the curved edge joining the boundary
points at angles a and b: pulled toward the center (radius < 1). -/
def curveControl (a b : ℚ) : PPoint := { angle := (a + b) / 2, radius := curvature }

/-- The point sequence of one built path together with whether it closes
into a filled polygon (ribbon) or stays an open polyline (simple line). -/
structure BuiltPath where
  closed : Bool
  points : List PPoint
  deriving DecidableEq, Repr

/-- A width is numerically valid when it is a nonnegative angle smaller than
the full circle. -/
def validWidth (w : ℚ) : Bool := decide (0 ≤ w ∧ w < 360)

/-- Modelled from the spec: the path builder (section 4.2), standing in for
the missing builder of the implementation.  A width outside the valid
numeric range is an InvalidGeometryError.  With both widths 0 the result is
an open polyline from the start-angle boundary point to the end-angle
boundary point through a centerward control point; otherwise the result is
a closed polygon on the four boundary points
(start − sw/2), (start + sw/2), (end + ew/2), (end − ew/2), whose two long
edges each carry a centerward control point. -/
def build_path (sa ea sw ew : ℚ) : Except CyrcosError BuiltPath :=
  if ¬ (validWidth sw ∧ validWidth ew) then
    Except.error CyrcosError.InvalidGeometryError
  else if sw = 0 ∧ ew = 0 then
    Except.ok { closed := false
                points := [onCircle sa, curveControl sa ea, onCircle ea] }
  else
    Except.ok { closed := true
                points := [onCircle (sa - sw / 2), onCircle (sa + sw / 2),
                           curveControl (sa + sw / 2) (ea + ew / 2),
                           onCircle (ea + ew / 2), onCircle (ea - ew / 2),
                           curveControl (ea - ew / 2) (sa - sw / 2)] }

/-- Segment lookup by index; an index with no segment is a configuration
error. -/
def getSegment (segs : List Segment) (i : ℕ) : Except CyrcosError Segment :=
  match List.get? segs i with
  | some s => Except.ok s
  | none => Except.error CyrcosError.ConfigurationError

/-- Modelled from the spec: by-segment path building (section 4.3), standing
in for the missing builder of the implementation.  Each (segment, ratio)
pair is resolved through ratio_to_angle, each thickness ratio is resolved to
an absolute width by multiplying by that segment's width, and the result is
delegated to build_path. -/
def build_path_by_segment (segs : List Segment) (ssi esi : ℕ)
    (sr er st et : ℚ) : Except CyrcosError BuiltPath := do
  let sseg ← getSegment segs ssi
  let eseg ← getSegment segs esi
  let sa ← ratio_to_angle sseg sr
  let ea ← ratio_to_angle eseg er
  build_path sa ea (st * sseg.width) (et * eseg.width)

/-- Modelled from the spec: the color_by policy of section 4.4 as the tagged
variant suggested in section 9 — absent/None, the scalar end token, or a
per-path list mixing literal colors with the start and end tokens. -/
inductive ColorBy where
  | default
  | endOfPath
  | perPath (cs : List String)
  deriving DecidableEq, Repr

/-- Fallback color used when an angle falls in no segment. -/
def defaultColor : String := ("black")

/-- One element of a per-path color list: the start token picks the origin
segment's color, the end token picks the destination segment's color, and
anything else is a literal color. -/
def resolveElem (origin dest e : String) : String :=
  if e = ("start") then origin else if e = ("end") then dest else e

/-- Modelled from the spec: color resolution (section 4.4), standing in for
the missing resolver of the implementation.  Policy per path: absent/None
gives the origin segment's color; the scalar end token gives the destination
segment's color; a list must have length equal to the path count
(ConfigurationError otherwise) and is read element-wise. -/
def resolve_color (cb : ColorBy) (pathCount idx : ℕ) (origin dest : String) :
    Except CyrcosError String :=
  match cb with
  | ColorBy.default => Except.ok origin
  | ColorBy.endOfPath => Except.ok dest
  | ColorBy.perPath cs =>
    if cs.length = pathCount then
      Except.ok (resolveElem origin dest (List.getD cs idx defaultColor))
    else Except.error CyrcosError.ConfigurationError

/-- Index of the segment whose occupied span contains the angle, if any. -/
def segment_of_angle (segs : List Segment) (a : ℚ) : Option ℕ :=
  List.findIdx? (fun s => decide (s.start ≤ a ∧ a < s.stop)) segs

/-- Display color of the segment containing the angle, or the fallback color
for an angle in a gap. -/
def segColor (segs : List Segment) (a : ℚ) : String :=
  match segment_of_angle segs a with
  | some i => (List.getD segs i default).color
  | none => defaultColor

/-- Modelled from the spec: one Path record of section 3 — angular
positions, widths, resolved draw color, derived origin and destination
segment indices, and the built geometry. -/
structure Path where
  start_angle : ℚ
  end_angle : ℚ
  start_width : ℚ
  end_width : ℚ
  color : String
  origin : Option ℕ
  dest : Option ℕ
  geometry : BuiltPath
  deriving DecidableEq, Repr

/-- Modelled from the spec: the Figure aggregate of section 3 — the ordered
segments fixed at construction and the append-only path list. -/
structure Figure where
  segments : List Segment
  paths : List Path
  deriving DecidableEq, Repr

/-- Modelled from the spec: figure construction (section 6) — lay the
segments out and start with no paths. -/
def new_figure (n : ℕ) (gap : ℚ) : Except CyrcosError Figure :=
  Except.map (fun segs => { segments := segs, paths := [] }) (layout n gap)

/-- Effectful map over a list of indices: the first failure aborts the whole
batch, exactly one result per index otherwise. -/
def mapE {α : Type} (f : ℕ → Except CyrcosError α) :
    List ℕ → Except CyrcosError (List α)
  | [] => Except.ok []
  | i :: is =>
    match f i with
    | Except.error e => Except.error e
    | Except.ok y =>
      match mapE f is with
      | Except.error e => Except.error e
      | Except.ok ys => Except.ok (y :: ys)

/-- Build the path of index i of an absolute-angle batch Add call: geometry
through build_path, origin and destination segments derived from the angles,
color through resolve_color. -/
def mkPathAt (segs : List Segment) (cb : ColorBy) (k i : ℕ)
    (sa ea sw ew : ℚ) : Except CyrcosError Path := do
  let geom ← build_path sa ea sw ew
  let c ← resolve_color cb k i (segColor segs sa) (segColor segs ea)
  Except.ok { start_angle := sa, end_angle := ea
              start_width := sw, end_width := ew
              color := c
              origin := segment_of_angle segs sa
              dest := segment_of_angle segs ea
              geometry := geom }

/-- Modelled from the spec: Add_Paths (section 6), standing in for the
missing method of the implementation.  All numeric arrays must have equal
length (ConfigurationError otherwise); every path of the batch is validated
and built before the figure is touched, and on any failure the figure is
returned unchanged together with the error (all-or-nothing). -/
def Add_Paths (fig : Figure) (sas eas sws ews : List ℚ) (cb : ColorBy) :
    Figure × Option CyrcosError :=
  if eas.length = sas.length ∧ sws.length = sas.length ∧ ews.length = sas.length then
    match mapE (fun i => mkPathAt fig.segments cb sas.length i
        (List.getD sas i 0) (List.getD eas i 0)
        (List.getD sws i 0) (List.getD ews i 0)) (List.range sas.length) with
    | Except.ok ps => ({ fig with paths := fig.paths ++ ps }, none)
    | Except.error e => (fig, some e)
  else (fig, some CyrcosError.ConfigurationError)

/-- Build the path of index i of a by-segment batch Add call: angles through
ratio_to_angle, widths as thickness ratios of the segment widths, geometry
through build_path, origin and destination the given segment indices. -/
def mkPathBySegAt (segs : List Segment) (cb : ColorBy) (k i : ℕ)
    (ssi esi : ℕ) (sr er st et : ℚ) : Except CyrcosError Path := do
  let sseg ← getSegment segs ssi
  let eseg ← getSegment segs esi
  let sa ← ratio_to_angle sseg sr
  let ea ← ratio_to_angle eseg er
  let geom ← build_path sa ea (st * sseg.width) (et * eseg.width)
  let c ← resolve_color cb k i sseg.color eseg.color
  Except.ok { start_angle := sa, end_angle := ea
              start_width := st * sseg.width, end_width := et * eseg.width
              color := c
              origin := some ssi
              dest := some esi
              geometry := geom }

/-- Modelled from the spec: Add_Paths_By_Segment (section 6), standing in
for the missing method of the implementation.  All six arrays must have
equal length (ConfigurationError otherwise); every path of the batch is
validated and built before the figure is touched, and on any failure the
figure is returned unchanged together with the error (all-or-nothing). -/
def Add_Paths_By_Segment (fig : Figure) (ssis esis : List ℕ)
    (srs ers sts ets : List ℚ) (cb : ColorBy) : Figure × Option CyrcosError :=
  if esis.length = ssis.length ∧ srs.length = ssis.length ∧
      ers.length = ssis.length ∧ sts.length = ssis.length ∧
      ets.length = ssis.length then
    match mapE (fun i => mkPathBySegAt fig.segments cb ssis.length i
        (List.getD ssis i 0) (List.getD esis i 0)
        (List.getD srs i 0) (List.getD ers i 0)
        (List.getD sts i 0) (List.getD ets i 0)) (List.range ssis.length) with
    | Except.ok ps => ({ fig with paths := fig.paths ++ ps }, none)
    | Except.error e => (fig, some e)
  else (fig, some CyrcosError.ConfigurationError)

/-- Well-formedness of a color_by policy for a batch of k paths: a per-path
list must have length k; the other policies are always well formed. -/
def colorByOk (cb : ColorBy) (k : ℕ) : Prop :=
  match cb with
  | ColorBy.perPath cs => cs.length = k
  | _ => True

theorem exceptBind_ok {α β : Type} (a : α) (f : α → Except CyrcosError β) :
    Bind.bind (Except.ok a) f = f a := rfl

theorem exceptBind_error {α β : Type} (e : CyrcosError)
    (f : α → Except CyrcosError β) :
    Bind.bind (Except.error e : Except CyrcosError α) f = Except.error e := rfl

theorem layout_ok_elim {n : ℕ} {gap : ℚ} {segs : List Segment}
    (h : layout n gap = Except.ok segs) :
    0 < 360 - (n : ℚ) * gap ∧ segs = (List.range n).map (mkSegment n gap) := by
  unfold layout at h
  split at h
  · exact absurd h (by simp)
  · rename_i hc
    refine ⟨lt_of_not_le hc, ?_⟩
    injection h with h
    exact h.symm

theorem segWidth_pos {n : ℕ} {gap : ℚ} (hn : 0 < n)
    (h : 0 < 360 - (n : ℚ) * gap) : 0 < segWidth n gap := by
  unfold segWidth
  exact div_pos h (by exact_mod_cast hn)

theorem mem_layout {n : ℕ} {gap : ℚ} {segs : List Segment} {s : Segment}
    (h : layout n gap = Except.ok segs) (hs : s ∈ segs) :
    ∃ i, i < n ∧ s = mkSegment n gap i := by
  obtain ⟨-, rfl⟩ := layout_ok_elim h
  obtain ⟨i, hi, rfl⟩ := List.mem_map.mp hs
  exact ⟨i, List.mem_range.mp hi, rfl⟩

theorem layout_getD {n : ℕ} {gap : ℚ} {segs : List Segment} {i : ℕ}
    (h : layout n gap = Except.ok segs) (hi : i < n) :
    List.getD segs i default = mkSegment n gap i := by
  obtain ⟨-, rfl⟩ := layout_ok_elim h
  simp [List.getD_eq_getElem?_getD, List.getElem?_map, List.getElem?_range hi]

theorem layout_length {n : ℕ} {gap : ℚ} {segs : List Segment}
    (h : layout n gap = Except.ok segs) : segs.length = n := by
  obtain ⟨-, rfl⟩ := layout_ok_elim h
  simp

theorem getSegment_layout {n : ℕ} {gap : ℚ} {segs : List Segment} {i : ℕ}
    (h : layout n gap = Except.ok segs) (hi : i < n) :
    getSegment segs i = Except.ok (mkSegment n gap i) := by
  obtain ⟨-, rfl⟩ := layout_ok_elim h
  unfold getSegment
  rw [List.get?_eq_getElem?]
  simp [List.getElem?_map, List.getElem?_range hi]

theorem ratio_to_angle_ok {s : Segment} {r : ℚ} (h0 : 0 ≤ r) (h1 : r ≤ 1) :
    ratio_to_angle s r = Except.ok (s.stop - r * s.width) := by
  unfold ratio_to_angle
  rw [if_pos ⟨h0, h1⟩]

theorem build_path_error_eq {sa ea sw ew : ℚ} {e : CyrcosError}
    (h : build_path sa ea sw ew = Except.error e) :
    e = CyrcosError.InvalidGeometryError := by
  unfold build_path at h
  split at h
  · injection h with h
    exact h.symm
  · split at h <;> exact absurd h (by simp)

theorem build_path_isOk (sa ea : ℚ) {sw ew : ℚ}
    (hsw : validWidth sw = true) (hew : validWidth ew = true) :
    ∃ bp, build_path sa ea sw ew = Except.ok bp := by
  unfold build_path
  rw [if_neg (by simp [hsw, hew])]
  split <;> exact ⟨_, rfl⟩

theorem resolve_color_isOk (cb : ColorBy) (k i : ℕ) (origin dest : String)
    (h : colorByOk cb k) :
    ∃ c, resolve_color cb k i origin dest = Except.ok c := by
  cases cb with
  | default => exact ⟨origin, rfl⟩
  | endOfPath => exact ⟨dest, rfl⟩
  | perPath cs =>
    have h2 : cs.length = k := h
    exact ⟨resolveElem origin dest (List.getD cs i defaultColor),
      by simp [resolve_color, h2]⟩

theorem mkPathAt_isOk {segs : List Segment} {cb : ColorBy} {k i : ℕ}
    {sa ea sw ew : ℚ}
    (hsw : validWidth sw = true) (hew : validWidth ew = true)
    (hcb : colorByOk cb k) :
    ∃ p, mkPathAt segs cb k i sa ea sw ew = Except.ok p := by
  obtain ⟨bp, hbp⟩ := build_path_isOk sa ea hsw hew
  obtain ⟨c, hc⟩ := resolve_color_isOk cb k i
    (segColor segs sa) (segColor segs ea) hcb
  refine ⟨{ start_angle := sa, end_angle := ea, start_width := sw, end_width := ew,
            color := c, origin := segment_of_angle segs sa,
            dest := segment_of_angle segs ea, geometry := bp }, ?_⟩
  simp [mkPathAt, hbp, hc, exceptBind_ok]

theorem mkPathAt_error_eq {segs : List Segment} {cb : ColorBy} {k i : ℕ}
    {sa ea sw ew : ℚ} {e : CyrcosError}
    (hcb : colorByOk cb k)
    (h : mkPathAt segs cb k i sa ea sw ew = Except.error e) :
    e = CyrcosError.InvalidGeometryError := by
  obtain ⟨c, hc⟩ := resolve_color_isOk cb k i
    (segColor segs sa) (segColor segs ea) hcb
  cases hbp : build_path sa ea sw ew with
  | error e2 =>
    have hm : mkPathAt segs cb k i sa ea sw ew = Except.error e2 := by
      simp [mkPathAt, hbp, exceptBind_error]
    rw [hm] at h
    injection h with h2
    rw [← h2]
    exact build_path_error_eq hbp
  | ok bp =>
    have hm : mkPathAt segs cb k i sa ea sw ew =
        Except.ok { start_angle := sa, end_angle := ea, start_width := sw,
                    end_width := ew, color := c,
                    origin := segment_of_angle segs sa,
                    dest := segment_of_angle segs ea, geometry := bp } := by
      simp [mkPathAt, hbp, hc, exceptBind_ok]
    rw [hm] at h
    exact absurd h (by simp)

theorem mkPathAt_error_of_invalid {segs : List Segment} {cb : ColorBy}
    {k i : ℕ} {sa ea sw ew : ℚ}
    (h : ¬ (validWidth sw = true ∧ validWidth ew = true)) :
    mkPathAt segs cb k i sa ea sw ew =
      Except.error CyrcosError.InvalidGeometryError := by
  have hbp : build_path sa ea sw ew =
      Except.error CyrcosError.InvalidGeometryError := by
    unfold build_path
    rw [if_pos (by simpa using h)]
  simp [mkPathAt, hbp, exceptBind_error]

theorem mapE_ok_length {α : Type} {f : ℕ → Except CyrcosError α}
    {is : List ℕ} {ys : List α} (h : mapE f is = Except.ok ys) :
    ys.length = is.length := by
  induction is generalizing ys with
  | nil =>
    unfold mapE at h
    injection h with h
    subst h
    rfl
  | cons a as ih =>
    unfold mapE at h
    cases hfa : f a with
    | error e => rw [hfa] at h; exact absurd h (by simp)
    | ok y =>
      rw [hfa] at h
      cases hrec : mapE f as with
      | error e => rw [hrec] at h; exact absurd h (by simp)
      | ok ys2 =>
        rw [hrec] at h
        injection h with h
        subst h
        simp [ih hrec]

theorem mapE_isOk {α : Type} {f : ℕ → Except CyrcosError α} {is : List ℕ}
    (h : ∀ i ∈ is, ∃ y, f i = Except.ok y) :
    ∃ ys, mapE f is = Except.ok ys := by
  induction is with
  | nil => exact ⟨[], rfl⟩
  | cons a as ih =>
    obtain ⟨y, hy⟩ := h a (List.mem_cons_self a as)
    obtain ⟨ys, hys⟩ := ih (fun i hi => h i (List.mem_cons_of_mem a hi))
    exact ⟨y :: ys, by unfold mapE; rw [hy, hys]⟩

theorem mapE_error_of_mem {α : Type} {f : ℕ → Except CyrcosError α}
    {is : List ℕ} {i : ℕ} {E : CyrcosError}
    (hall : ∀ j ∈ is, ∀ e, f j = Except.error e → e = E)
    (hi : i ∈ is) (he : ∃ e, f i = Except.error e) :
    mapE f is = Except.error E := by
  induction is with
  | nil => exact absurd hi (List.not_mem_nil i)
  | cons a as ih =>
    unfold mapE
    cases hfa : f a with
    | error e =>
      rw [hall a (List.mem_cons_self a as) e hfa]
    | ok y =>
      have hitail : i ∈ as := by
        rcases List.mem_cons.mp hi with h | h
        · subst h
          obtain ⟨e, he⟩ := he
          rw [hfa] at he
          exact absurd he (by simp)
        · exact h
      rw [ih (fun j hj => hall j (List.mem_cons_of_mem a hj)) hitail]

theorem getD_mem {α : Type} (l : List α) (i : ℕ) (d : α) (h : i < l.length) :
    List.getD l i d ∈ l := by
  rw [List.getD_eq_getElem?_getD, List.getElem?_eq_getElem h]
  exact List.getElem_mem h

theorem mkPathBySegAt_isOk {n : ℕ} {gap : ℚ} {segs : List Segment}
    (cb : ColorBy) (k i : ℕ) {ssi esi : ℕ} {sr er st et : ℚ}
    (hl : layout n gap = Except.ok segs)
    (hssi : ssi < n) (hesi : esi < n)
    (hsr0 : 0 ≤ sr) (hsr1 : sr ≤ 1) (her0 : 0 ≤ er) (her1 : er ≤ 1)
    (hst : 0 ≤ st) (hstw : st * segWidth n gap < 360)
    (het : 0 ≤ et) (hetw : et * segWidth n gap < 360)
    (hcb : colorByOk cb k) :
    ∃ p, mkPathBySegAt segs cb k i ssi esi sr er st et = Except.ok p ∧
      p.origin = some ssi ∧ p.dest = some esi ∧
      p.start_width = st * segWidth n gap ∧
      p.end_width = et * segWidth n gap := by
  obtain ⟨hpos, -⟩ := layout_ok_elim hl
  have hn : 0 < n := Nat.pos_of_ne_zero (by rintro rfl; exact Nat.not_lt_zero ssi hssi)
  have hw : 0 < segWidth n gap := segWidth_pos hn hpos
  have hvs : validWidth (st * (mkSegment n gap ssi).width) = true := by
    unfold validWidth
    exact decide_eq_true ⟨mul_nonneg hst (le_of_lt hw), hstw⟩
  have hve : validWidth (et * (mkSegment n gap esi).width) = true := by
    unfold validWidth
    exact decide_eq_true ⟨mul_nonneg het (le_of_lt hw), hetw⟩
  obtain ⟨bp, hbp⟩ := build_path_isOk
    ((mkSegment n gap ssi).stop - sr * (mkSegment n gap ssi).width)
    ((mkSegment n gap esi).stop - er * (mkSegment n gap esi).width)
    hvs hve
  obtain ⟨c, hc⟩ := resolve_color_isOk cb k i
    (mkSegment n gap ssi).color (mkSegment n gap esi).color hcb
  refine ⟨{ start_angle := (mkSegment n gap ssi).stop - sr * (mkSegment n gap ssi).width
            end_angle := (mkSegment n gap esi).stop - er * (mkSegment n gap esi).width
            start_width := st * (mkSegment n gap ssi).width
            end_width := et * (mkSegment n gap esi).width
            color := c, origin := some ssi, dest := some esi
            geometry := bp }, ?_, rfl, rfl, rfl, rfl⟩
  simp only [mkPathBySegAt, getSegment_layout hl hssi, getSegment_layout hl hesi,
    exceptBind_ok, ratio_to_angle_ok hsr0 hsr1, ratio_to_angle_ok her0 her1,
    hbp, hc]

/-- C2: for every positive n and every gap_size ≥ 0 with gap_size·n < 360,
layout produces exactly n pairwise disjoint segment spans in index order,
each of width (360 − n·gap)/n, segment i starting at i·(width+gap), with the
n widths plus n gaps summing to exactly 360; and when the available arc
360 − n·gap is ≤ 0, layout fails with ConfigurationError. -/
theorem layout_spec (n : ℕ) (gap : ℚ) (hn : 0 < n) (hg : 0 ≤ gap) :
    ((n : ℚ) * gap < 360 →
      ∃ segs, layout n gap = Except.ok segs ∧ segs.length = n ∧
        (∀ i, i < n →
          (List.getD segs i default).width = (360 - (n : ℚ) * gap) / (n : ℚ) ∧
          (List.getD segs i default).start =
            (i : ℚ) * ((360 - (n : ℚ) * gap) / (n : ℚ) + gap)) ∧
        (∀ i j, i < j → j < n →
          (List.getD segs i default).stop ≤ (List.getD segs j default).start ∧
          ∀ a : ℚ, ¬((List.getD segs i default).containsAngle a ∧
                     (List.getD segs j default).containsAngle a)) ∧
        (List.map Segment.width segs).sum + (n : ℚ) * gap = 360) ∧
    (360 - (n : ℚ) * gap ≤ 0 →
      layout n gap = Except.error CyrcosError.ConfigurationError) := by
  have hn0 : ((n : ℚ)) ≠ 0 := Nat.cast_ne_zero.mpr (Nat.pos_iff_ne_zero.mp hn)
  constructor
  · intro hlt
    have hpos : 0 < 360 - (n : ℚ) * gap := by linarith
    have hl : layout n gap = Except.ok ((List.range n).map (mkSegment n gap)) := by
      unfold layout
      rw [if_neg (not_le.mpr hpos)]
    have hw : 0 < segWidth n gap := segWidth_pos hn hpos
    refine ⟨(List.range n).map (mkSegment n gap), hl, by simp, ?_, ?_, ?_⟩
    · intro i hi
      rw [layout_getD hl hi]
      exact ⟨rfl, rfl⟩
    · intro i j hij hj
      have hi : i < n := lt_trans hij hj
      rw [layout_getD hl hi, layout_getD hl hj]
      have hcast : (i : ℚ) + 1 ≤ (j : ℚ) := by exact_mod_cast hij
      have hstep : (mkSegment n gap i).stop ≤ (mkSegment n gap j).start := by
        show (i : ℚ) * (segWidth n gap + gap) + segWidth n gap ≤
          (j : ℚ) * (segWidth n gap + gap)
        nlinarith
      refine ⟨hstep, ?_⟩
      rintro a ⟨⟨-, hlt1⟩, ⟨hge2, -⟩⟩
      have : a < a := lt_of_lt_of_le hlt1 (le_trans hstep hge2)
      exact lt_irrefl a this
    · rw [List.map_map]
      have hconst : (Segment.width ∘ mkSegment n gap) = fun _ => segWidth n gap := rfl
      rw [hconst, List.map_const', List.sum_replicate, List.length_range,
        nsmul_eq_mul]
      show (n : ℚ) * ((360 - (n : ℚ) * gap) / (n : ℚ)) + (n : ℚ) * gap = 360
      field_simp
  · intro hle
    unfold layout
    rw [if_pos hle]

/-- C2 witness: the layout precondition holds at n = 5, gap_size = 25 (the
notebook's widest-gap example). -/
theorem layout_spec_witness :
    0 < 5 ∧ (0 : ℚ) ≤ 25 ∧
      (((5 : ℕ) : ℚ) * 25 < 360 →
        ∃ segs, layout 5 25 = Except.ok segs ∧ segs.length = 5 ∧
          (∀ i, i < 5 →
            (List.getD segs i default).width = (360 - ((5 : ℕ) : ℚ) * 25) / ((5 : ℕ) : ℚ) ∧
            (List.getD segs i default).start =
              (i : ℚ) * ((360 - ((5 : ℕ) : ℚ) * 25) / ((5 : ℕ) : ℚ) + 25)) ∧
          (∀ i j, i < j → j < 5 →
            (List.getD segs i default).stop ≤ (List.getD segs j default).start ∧
            ∀ a : ℚ, ¬((List.getD segs i default).containsAngle a ∧
                       (List.getD segs j default).containsAngle a)) ∧
          (List.map Segment.width segs).sum + ((5 : ℕ) : ℚ) * 25 = 360) ∧
      (360 - ((5 : ℕ) : ℚ) * 25 ≤ 0 →
        layout 5 25 = Except.error CyrcosError.ConfigurationError) := by
  refine ⟨by decide, by norm_num, ?_⟩
  exact layout_spec 5 25 (by decide) (by norm_num)

/-- C3: for every segment of every valid layout, ratio 1.0 addresses the
segment's start angle and ratio 0.0 its end angle (the reversal is
intentional). -/
theorem ratio_to_angle_endpoints (n : ℕ) (gap : ℚ) (segs : List Segment)
    (s : Segment) (hl : layout n gap = Except.ok segs) (hs : s ∈ segs) :
    ratio_to_angle s 1 = Except.ok s.start ∧
    ratio_to_angle s 0 = Except.ok s.stop := by
  constructor
  · rw [ratio_to_angle_ok (le_of_lt one_pos) (le_refl 1)]
    simp [Segment.stop]
  · rw [ratio_to_angle_ok (le_refl 0) (le_of_lt one_pos)]
    simp

/-- C3 witness: the first segment of the n = 5, gap_size = 25 layout. -/
theorem ratio_to_angle_endpoints_witness :
    layout 5 25 = Except.ok ((List.range 5).map (mkSegment 5 25)) ∧
      mkSegment 5 25 0 ∈ (List.range 5).map (mkSegment 5 25) ∧
      ratio_to_angle (mkSegment 5 25 0) 1 = Except.ok (mkSegment 5 25 0).start ∧
      ratio_to_angle (mkSegment 5 25 0) 0 = Except.ok (mkSegment 5 25 0).stop := by
  have h1 : layout 5 25 = Except.ok ((List.range 5).map (mkSegment 5 25)) := by
    unfold layout
    norm_num
  have h2 : mkSegment 5 25 0 ∈ (List.range 5).map (mkSegment 5 25) := by
    simp [List.mem_map]
    exact ⟨0, by simp, rfl⟩
  exact ⟨h1, h2, ratio_to_angle_endpoints 5 25 _ _ h1 h2⟩

/-- C4: for every segment of every valid layout and every ratio r in [0,1],
angle_to_ratio inverts ratio_to_angle exactly: feeding the resolved angle
back recovers r. -/
theorem angle_ratio_roundtrip (n : ℕ) (gap : ℚ) (segs : List Segment)
    (s : Segment) (hl : layout n gap = Except.ok segs) (hs : s ∈ segs)
    (r : ℚ) (h0 : 0 ≤ r) (h1 : r ≤ 1) :
    Except.bind (ratio_to_angle s r) (angle_to_ratio s) = Except.ok r := by
  obtain ⟨hpos, -⟩ := layout_ok_elim hl
  obtain ⟨i, hi, rfl⟩ := mem_layout hl hs
  have hn : 0 < n := Nat.pos_of_ne_zero (by rintro rfl; exact Nat.not_lt_zero i hi)
  have hw : 0 < segWidth n gap := segWidth_pos hn hpos
  have hww : (mkSegment n gap i).width = segWidth n gap := rfl
  rw [ratio_to_angle_ok h0 h1]
  show angle_to_ratio (mkSegment n gap i)
    ((mkSegment n gap i).stop - r * (mkSegment n gap i).width) = Except.ok r
  unfold angle_to_ratio
  rw [if_pos]
  · congr 1
    rw [sub_sub_cancel, hww]
    field_simp
  · constructor
    · show (mkSegment n gap i).start ≤ _
      have : (mkSegment n gap i).start = (mkSegment n gap i).stop -
          (mkSegment n gap i).width := by
        simp [Segment.stop]
      rw [this, hww]
      nlinarith
    · nlinarith [hww ▸ mul_nonneg h0 (le_of_lt hw)]

/-- C4 witness: round-trip at r = 1/2 on the first segment of the n = 5,
gap_size = 25 layout. -/
theorem angle_ratio_roundtrip_witness :
    layout 5 25 = Except.ok ((List.range 5).map (mkSegment 5 25)) ∧
      mkSegment 5 25 0 ∈ (List.range 5).map (mkSegment 5 25) ∧
      (0 : ℚ) ≤ 1 / 2 ∧ (1 : ℚ) / 2 ≤ 1 ∧
      Except.bind (ratio_to_angle (mkSegment 5 25 0) (1 / 2))
        (angle_to_ratio (mkSegment 5 25 0)) = Except.ok (1 / 2) := by
  have h1 : layout 5 25 = Except.ok ((List.range 5).map (mkSegment 5 25)) := by
    unfold layout
    norm_num
  have h2 : mkSegment 5 25 0 ∈ (List.range 5).map (mkSegment 5 25) := by
    simp [List.mem_map]
    exact ⟨0, by simp, rfl⟩
  exact ⟨h1, h2, by norm_num, by norm_num,
    angle_ratio_roundtrip 5 25 _ _ h1 h2 (1 / 2) (by norm_num) (by norm_num)⟩

/-- C5: color resolution policy — absent/None yields the origin segment's
color; the scalar end token yields the destination segment's color; a
sequence of matching length is read element-wise with the start and end
tokens picking the origin and destination colors and anything else taken
literally; in particular the list [black, start, yellow, end] on 4 paths
yields black, origin, yellow, destination in that order. -/
theorem resolve_color_policy (origin dest : String) (cs : List String)
    (idx : ℕ) (hidx : idx < cs.length) :
    resolve_color ColorBy.default cs.length idx origin dest = Except.ok origin ∧
    resolve_color ColorBy.endOfPath cs.length idx origin dest = Except.ok dest ∧
    (List.getD cs idx defaultColor = ("start") →
      resolve_color (ColorBy.perPath cs) cs.length idx origin dest =
        Except.ok origin) ∧
    (List.getD cs idx defaultColor = ("end") →
      resolve_color (ColorBy.perPath cs) cs.length idx origin dest =
        Except.ok dest) ∧
    (List.getD cs idx defaultColor ≠ ("start") →
      List.getD cs idx defaultColor ≠ ("end") →
      resolve_color (ColorBy.perPath cs) cs.length idx origin dest =
        Except.ok (List.getD cs idx defaultColor)) ∧
    (resolve_color (ColorBy.perPath [("black"), ("start"), ("yellow"), ("end")])
        4 0 origin dest = Except.ok ("black") ∧
     resolve_color (ColorBy.perPath [("black"), ("start"), ("yellow"), ("end")])
        4 1 origin dest = Except.ok origin ∧
     resolve_color (ColorBy.perPath [("black"), ("start"), ("yellow"), ("end")])
        4 2 origin dest = Except.ok ("yellow") ∧
     resolve_color (ColorBy.perPath [("black"), ("start"), ("yellow"), ("end")])
        4 3 origin dest = Except.ok dest) := by
  refine ⟨rfl, rfl, ?_, ?_, ?_, ?_, ?_, ?_, ?_⟩
  · intro he
    simp only [List.getD_eq_getElem?_getD] at he
    simp [resolve_color, resolveElem, he]
  · intro he
    simp only [List.getD_eq_getElem?_getD] at he
    simp [resolve_color, resolveElem, he]
  · intro h1 h2
    simp only [List.getD_eq_getElem?_getD] at h1 h2
    simp [resolve_color, resolveElem, h1, h2]
  · simp [resolve_color, resolveElem, List.getD]
  · simp [resolve_color, resolveElem, List.getD]
  · simp [resolve_color, resolveElem, List.getD]
  · simp [resolve_color, resolveElem, List.getD]

/-- C5 witness: the element-wise policy evaluated at index 1 of the
notebook's four-element color_by list. -/
theorem resolve_color_policy_witness :
    1 < ([("black"), ("start"), ("yellow"), ("end")] : List String).length ∧
    resolve_color ColorBy.default
      ([("black"), ("start"), ("yellow"), ("end")] : List String).length 1
      ("C0") ("C1") = Except.ok ("C0") := by
  refine ⟨by decide, ?_⟩
  exact (resolve_color_policy ("C0") ("C1")
    [("black"), ("start"), ("yellow"), ("end")] 1 (by decide)).1

/-- C6: a batch Add call (absolute-angle or by-segment) whose numeric arrays
are not all of equal length fails with ConfigurationError and leaves the
Figure exactly as it was — all-or-nothing per call. -/
theorem add_length_mismatch (fig : Figure) (sas eas sws ews : List ℚ)
    (cb : ColorBy) (ssis esis : List ℕ) (srs ers sts ets : List ℚ)
    (h1 : ¬(eas.length = sas.length ∧ sws.length = sas.length ∧
            ews.length = sas.length))
    (h2 : ¬(esis.length = ssis.length ∧ srs.length = ssis.length ∧
            ers.length = ssis.length ∧ sts.length = ssis.length ∧
            ets.length = ssis.length)) :
    Add_Paths fig sas eas sws ews cb =
      (fig, some CyrcosError.ConfigurationError) ∧
    Add_Paths_By_Segment fig ssis esis srs ers sts ets cb =
      (fig, some CyrcosError.ConfigurationError) := by
  constructor
  · unfold Add_Paths
    rw [if_neg h1]
  · unfold Add_Paths_By_Segment
    rw [if_neg h2]

/-- C6 witness: 4 start angles against 3 end angles (and a 4-against-3
by-segment call) on an empty figure. -/
theorem add_length_mismatch_witness :
    ¬((([250, 195, 50] : List ℚ)).length = (([20, 115, 330, 160] : List ℚ)).length ∧
      (([0, 0, 0, 0] : List ℚ)).length = (([20, 115, 330, 160] : List ℚ)).length ∧
      (([0, 0, 0, 0] : List ℚ)).length = (([20, 115, 330, 160] : List ℚ)).length) ∧
    Add_Paths { segments := [], paths := [] } [20, 115, 330, 160] [250, 195, 50]
        [0, 0, 0, 0] [0, 0, 0, 0] ColorBy.default =
      ({ segments := [], paths := [] }, some CyrcosError.ConfigurationError) := by
  refine ⟨by decide, ?_⟩
  exact (add_length_mismatch { segments := [], paths := [] }
    [20, 115, 330, 160] [250, 195, 50] [0, 0, 0, 0] [0, 0, 0, 0]
    ColorBy.default [0] [1, 2] [1] [1] [1] [1]
    (by decide) (by decide)).1

/-- C7: a batch Add_Paths call in which some width resolves outside the
valid numeric range (for example a width of 400 ≥ 360) fails with
InvalidGeometryError and returns the figure unmodified — validation happens
before any mutation, no partial path is added. -/
theorem add_paths_invalid_width (fig : Figure) (sas eas sws ews : List ℚ)
    (cb : ColorBy)
    (hlen : eas.length = sas.length ∧ sws.length = sas.length ∧
            ews.length = sas.length)
    (hcb : colorByOk cb sas.length) (i : ℕ) (hi : i < sas.length)
    (hbad : ¬(validWidth (List.getD sws i 0) = true ∧
              validWidth (List.getD ews i 0) = true)) :
    Add_Paths fig sas eas sws ews cb =
      (fig, some CyrcosError.InvalidGeometryError) := by
  have hmap : mapE (fun j => mkPathAt fig.segments cb sas.length j
      (List.getD sas j 0) (List.getD eas j 0)
      (List.getD sws j 0) (List.getD ews j 0)) (List.range sas.length) =
      Except.error CyrcosError.InvalidGeometryError := by
    apply mapE_error_of_mem (i := i)
    · intro j hj e he
      exact mkPathAt_error_eq hcb he
    · exact List.mem_range.mpr hi
    · exact ⟨_, mkPathAt_error_of_invalid hbad⟩
  unfold Add_Paths
  rw [if_pos hlen, hmap]

/-- C7 witness: a single-path call with start width 400 on an empty figure. -/
theorem add_paths_invalid_width_witness :
    (([250] : List ℚ)).length = (([20] : List ℚ)).length ∧
    colorByOk ColorBy.default (([20] : List ℚ)).length ∧
    0 < (([20] : List ℚ)).length ∧
    ¬(validWidth (List.getD ([400] : List ℚ) 0 0) = true ∧
      validWidth (List.getD ([0] : List ℚ) 0 0) = true) ∧
    Add_Paths { segments := [], paths := [] } [20] [250] [400] [0]
        ColorBy.default =
      ({ segments := [], paths := [] }, some CyrcosError.InvalidGeometryError) := by
  refine ⟨by decide, trivial, by decide, by decide, ?_⟩
  exact add_paths_invalid_width { segments := [], paths := [] } [20] [250]
    [400] [0] ColorBy.default ⟨by decide, by decide, by decide⟩ trivial 0
    (by decide) (by decide)

/-- C8: with both widths 0, build_path yields an open polyline whose two
endpoints sit at radius 1 on the start and end angles; with either width
positive it yields a closed polygon whose boundary points at radius 1 are
exactly (start − sw/2), (start + sw/2), (end + ew/2), (end − ew/2) in order,
all other (control) points being pulled strictly inside the outer circle. -/
theorem build_path_modes (sa ea sw ew : ℚ)
    (hsw : validWidth sw = true) (hew : validWidth ew = true) :
    (sw = 0 ∧ ew = 0 →
      ∃ bp, build_path sa ea sw ew = Except.ok bp ∧ bp.closed = false ∧
        bp.points.head? = some (onCircle sa) ∧
        bp.points.getLast? = some (onCircle ea) ∧
        ∀ p ∈ bp.points, p.radius = 1 ∨ p.radius < 1) ∧
    (0 < sw ∨ 0 < ew →
      ∃ bp, build_path sa ea sw ew = Except.ok bp ∧ bp.closed = true ∧
        List.filter (fun p => decide (p.radius = 1)) bp.points =
          [onCircle (sa - sw / 2), onCircle (sa + sw / 2),
           onCircle (ea + ew / 2), onCircle (ea - ew / 2)] ∧
        ∀ p ∈ bp.points, p.radius = 1 ∨ p.radius < 1) := by
  constructor
  · rintro ⟨rfl, rfl⟩
    refine ⟨{ closed := false
              points := [onCircle sa, curveControl sa ea, onCircle ea] }, ?_, rfl,
            rfl, ?_, ?_⟩
    · unfold build_path
      rw [if_neg (by decide), if_pos ⟨rfl, rfl⟩]
    · simp
    · intro p hp
      simp only [List.mem_cons, List.not_mem_nil, or_false] at hp
      rcases hp with rfl | rfl | rfl
      · left; rfl
      · right; show curvature < 1; norm_num [curvature]
      · left; rfl
  · intro h
    have hne : ¬(sw = 0 ∧ ew = 0) := by
      rintro ⟨rfl, rfl⟩
      rcases h with h | h <;> exact lt_irrefl 0 h
    refine ⟨{ closed := true
              points := [onCircle (sa - sw / 2), onCircle (sa + sw / 2),
                         curveControl (sa + sw / 2) (ea + ew / 2),
                         onCircle (ea + ew / 2), onCircle (ea - ew / 2),
                         curveControl (ea - ew / 2) (sa - sw / 2)] }, ?_, rfl,
            ?_, ?_⟩
    · unfold build_path
      rw [if_neg (by simp [hsw, hew]), if_neg hne]
    · simp [onCircle, curveControl, curvature, List.filter]
    · intro p hp
      simp only [List.mem_cons, List.not_mem_nil, or_false] at hp
      rcases hp with rfl | rfl | rfl | rfl | rfl | rfl
      · left; rfl
      · left; rfl
      · right; show curvature < 1; norm_num [curvature]
      · left; rfl
      · left; rfl
      · right; show curvature < 1; norm_num [curvature]

/-- C8 witness: the notebook's first ribbon call, start angle 20 to end
angle 250 with widths 13 and 5. -/
theorem build_path_modes_witness :
    validWidth (13 : ℚ) = true ∧ validWidth (5 : ℚ) = true ∧
    ((13 : ℚ) = 0 ∧ (5 : ℚ) = 0 →
      ∃ bp, build_path 20 250 13 5 = Except.ok bp ∧ bp.closed = false ∧
        bp.points.head? = some (onCircle 20) ∧
        bp.points.getLast? = some (onCircle 250) ∧
        ∀ p ∈ bp.points, p.radius = 1 ∨ p.radius < 1) ∧
    ((0 : ℚ) < 13 ∨ (0 : ℚ) < 5 →
      ∃ bp, build_path 20 250 13 5 = Except.ok bp ∧ bp.closed = true ∧
        List.filter (fun p => decide (p.radius = 1)) bp.points =
          [onCircle (20 - 13 / 2), onCircle (20 + 13 / 2),
           onCircle (250 + 5 / 2), onCircle (250 - 5 / 2)] ∧
        ∀ p ∈ bp.points, p.radius = 1 ∨ p.radius < 1) := by
  refine ⟨by decide, by decide, ?_, ?_⟩
  · exact (build_path_modes 20 250 13 5 (by decide) (by decide)).1
  · exact (build_path_modes 20 250 13 5 (by decide) (by decide)).2

/-- C9: absolute-angle Add_Paths accepts any angles in [0, 360), including
angles falling in a gap between segments: with all widths numerically valid
the whole batch succeeds, no RangeError is possible, and one path is added
per index. -/
theorem add_paths_accepts_gap_angles (fig : Figure) (sas eas sws ews : List ℚ)
    (hlen : eas.length = sas.length ∧ sws.length = sas.length ∧
            ews.length = sas.length)
    (hang : ∀ a ∈ sas ++ eas, 0 ≤ a ∧ a < 360)
    (hw : ∀ w ∈ sws ++ ews, validWidth w = true) :
    ∃ ps : List Path,
      Add_Paths fig sas eas sws ews ColorBy.default =
        ({ fig with paths := fig.paths ++ ps }, none) ∧
      ps.length = sas.length := by
  have hallok : ∀ i ∈ List.range sas.length,
      ∃ p, mkPathAt fig.segments ColorBy.default sas.length i
        (List.getD sas i 0) (List.getD eas i 0)
        (List.getD sws i 0) (List.getD ews i 0) = Except.ok p := by
    intro i hi
    have hi2 : i < sas.length := List.mem_range.mp hi
    apply mkPathAt_isOk
    · exact hw _ (List.mem_append_left _ (getD_mem sws i 0 (by rw [hlen.2.1]; exact hi2)))
    · exact hw _ (List.mem_append_right _ (getD_mem ews i 0 (by rw [hlen.2.2]; exact hi2)))
    · trivial
  obtain ⟨ps, hps⟩ := mapE_isOk hallok
  have hlen2 : ps.length = sas.length := by
    have h := mapE_ok_length hps
    simpa using h
  refine ⟨ps, ?_, hlen2⟩
  unfold Add_Paths
  rw [if_pos hlen, hps]

/-- C9 witness: the notebook's n = 5, gap_size = 25 figure, whose segments
cover only 47 degrees each, with the angles 160, 115, 330, 20 / 310, 195,
50, 250 — several of which (for example 50 and 160) fall inside gaps. -/
theorem add_paths_accepts_gap_angles_witness :
    ((([310, 195, 50, 250] : List ℚ)).length = (([160, 115, 330, 20] : List ℚ)).length ∧
     (([15, 2, 4, 13] : List ℚ)).length = (([160, 115, 330, 20] : List ℚ)).length ∧
     (([28, 8, 1 / 5, 5] : List ℚ)).length = (([160, 115, 330, 20] : List ℚ)).length) ∧
    (∀ a ∈ ([160, 115, 330, 20] : List ℚ) ++ [310, 195, 50, 250], 0 ≤ a ∧ a < 360) ∧
    (∀ w ∈ ([15, 2, 4, 13] : List ℚ) ++ [28, 8, 1 / 5, 5], validWidth w = true) ∧
    ∃ ps : List Path,
      Add_Paths { segments := (List.range 5).map (mkSegment 5 25), paths := [] }
          [160, 115, 330, 20] [310, 195, 50, 250] [15, 2, 4, 13] [28, 8, 1 / 5, 5]
          ColorBy.default =
        ({ segments := (List.range 5).map (mkSegment 5 25), paths := [] ++ ps }, none) ∧
      ps.length = (([160, 115, 330, 20] : List ℚ)).length := by
  have hwlist : ∀ w ∈ ([15, 2, 4, 13] : List ℚ) ++ [28, 8, 1 / 5, 5],
      validWidth w = true := by
    norm_num [List.forall_mem_cons, validWidth, decide_eq_true_eq]
  refine ⟨⟨by decide, by decide, by decide⟩, by decide, hwlist, ?_⟩
  exact add_paths_accepts_gap_angles
    { segments := (List.range 5).map (mkSegment 5 25), paths := [] }
    [160, 115, 330, 20] [310, 195, 50, 250] [15, 2, 4, 13] [28, 8, 1 / 5, 5]
    ⟨by decide, by decide, by decide⟩ (by decide) hwlist

/-- C10: by-segment Add accepts ratio/thickness combinations whose ribbon
edge extends past the segment boundary (for example ratio 1.0 with
thickness 0.1): only the ratio itself is constrained to [0,1] and the
thickness to a valid resulting width — no hypothesis constrains
ratio ± thickness/2 — and the whole batch succeeds, one path per index. -/
theorem add_by_segment_accepts_overhang (n : ℕ) (gap : ℚ) (segs : List Segment)
    (hl : layout n gap = Except.ok segs) (fig : Figure)
    (hfig : fig.segments = segs)
    (ssis esis : List ℕ) (srs ers sts ets : List ℚ)
    (hlen : esis.length = ssis.length ∧ srs.length = ssis.length ∧
            ers.length = ssis.length ∧ sts.length = ssis.length ∧
            ets.length = ssis.length)
    (hss : ∀ j ∈ ssis, j < n) (hes : ∀ j ∈ esis, j < n)
    (hr : ∀ r ∈ srs ++ ers, 0 ≤ r ∧ r ≤ 1)
    (ht : ∀ t ∈ sts ++ ets, 0 ≤ t ∧ t * segWidth n gap < 360) :
    ∃ ps : List Path,
      Add_Paths_By_Segment fig ssis esis srs ers sts ets ColorBy.default =
        ({ fig with paths := fig.paths ++ ps }, none) ∧
      ps.length = ssis.length := by
  have hallok : ∀ i ∈ List.range ssis.length,
      ∃ p, mkPathBySegAt fig.segments ColorBy.default ssis.length i
        (List.getD ssis i 0) (List.getD esis i 0)
        (List.getD srs i 0) (List.getD ers i 0)
        (List.getD sts i 0) (List.getD ets i 0) = Except.ok p := by
    intro i hi
    have hi2 : i < ssis.length := List.mem_range.mp hi
    rw [hfig]
    have hsr := hr _ (List.mem_append_left _ (getD_mem srs i 0 (by rw [hlen.2.1]; exact hi2)))
    have her := hr _ (List.mem_append_right _ (getD_mem ers i 0 (by rw [hlen.2.2.1]; exact hi2)))
    have hst := ht _ (List.mem_append_left _ (getD_mem sts i 0 (by rw [hlen.2.2.2.1]; exact hi2)))
    have het := ht _ (List.mem_append_right _ (getD_mem ets i 0 (by rw [hlen.2.2.2.2]; exact hi2)))
    obtain ⟨p, hp, -, -, -, -⟩ := mkPathBySegAt_isOk ColorBy.default
      ssis.length i hl
      (hss _ (getD_mem ssis i 0 hi2))
      (hes _ (getD_mem esis i 0 (by rw [hlen.1]; exact hi2)))
      hsr.1 hsr.2 her.1 her.2 hst.1 hst.2 het.1 het.2 trivial
    exact ⟨p, hp⟩
  obtain ⟨ps, hps⟩ := mapE_isOk hallok
  have hlen2 : ps.length = ssis.length := by
    have h := mapE_ok_length hps
    simpa using h
  refine ⟨ps, ?_, hlen2⟩
  unfold Add_Paths_By_Segment
  rw [if_pos hlen, hps]

/-- C10 witness: the notebook's by-segment dataset — including start ratio
1.0 with start thickness 0.1, whose half-width overhangs the segment start —
on the n = 5, gap_size = 25 layout. -/
theorem add_by_segment_accepts_overhang_witness :
    layout 5 25 = Except.ok ((List.range 5).map (mkSegment 5 25)) ∧
    (∀ j ∈ ([0, 0, 1, 4, 3, 2] : List ℕ), j < 5) ∧
    (∀ j ∈ ([1, 2, 3, 0, 4, 1] : List ℕ), j < 5) ∧
    (∀ r ∈ ([1, 1, 1 / 2, 1 / 2, 1 / 5, 4 / 25] : List ℚ) ++
        [1, 9 / 10, 4 / 5, 3 / 10, 3 / 10, 17 / 20], 0 ≤ r ∧ r ≤ 1) ∧
    (∀ t ∈ ([1 / 10, 1 / 5, 1 / 20, 1 / 10, 3 / 10, 3 / 20] : List ℚ) ++
        [1 / 5, 3 / 10, 1 / 8, 1 / 5, 9 / 100, 1 / 10],
      0 ≤ t ∧ t * segWidth 5 25 < 360) ∧
    ∃ ps : List Path,
      Add_Paths_By_Segment
          { segments := (List.range 5).map (mkSegment 5 25), paths := [] }
          [0, 0, 1, 4, 3, 2] [1, 2, 3, 0, 4, 1]
          [1, 1, 1 / 2, 1 / 2, 1 / 5, 4 / 25]
          [1, 9 / 10, 4 / 5, 3 / 10, 3 / 10, 17 / 20]
          [1 / 10, 1 / 5, 1 / 20, 1 / 10, 3 / 10, 3 / 20]
          [1 / 5, 3 / 10, 1 / 8, 1 / 5, 9 / 100, 1 / 10] ColorBy.default =
        ({ segments := (List.range 5).map (mkSegment 5 25), paths := [] ++ ps },
          none) ∧
      ps.length = (([0, 0, 1, 4, 3, 2] : List ℕ)).length := by
  have h1 : layout 5 25 = Except.ok ((List.range 5).map (mkSegment 5 25)) := by
    unfold layout
    norm_num
  have hrlist : ∀ r ∈ ([1, 1, 1 / 2, 1 / 2, 1 / 5, 4 / 25] : List ℚ) ++
      [1, 9 / 10, 4 / 5, 3 / 10, 3 / 10, 17 / 20], 0 ≤ r ∧ r ≤ 1 := by
    norm_num [List.forall_mem_cons]
  have htlist : ∀ t ∈ ([1 / 10, 1 / 5, 1 / 20, 1 / 10, 3 / 10, 3 / 20] : List ℚ) ++
      [1 / 5, 3 / 10, 1 / 8, 1 / 5, 9 / 100, 1 / 10],
      0 ≤ t ∧ t * segWidth 5 25 < 360 := by
    norm_num [List.forall_mem_cons, segWidth]
  refine ⟨h1, by decide, by decide, hrlist, htlist, ?_⟩
  exact add_by_segment_accepts_overhang 5 25 _ h1
    { segments := (List.range 5).map (mkSegment 5 25), paths := [] } rfl
    [0, 0, 1, 4, 3, 2] [1, 2, 3, 0, 4, 1]
    [1, 1, 1 / 2, 1 / 2, 1 / 5, 4 / 25]
    [1, 9 / 10, 4 / 5, 3 / 10, 3 / 10, 17 / 20]
    [1 / 10, 1 / 5, 1 / 20, 1 / 10, 3 / 10, 3 / 20]
    [1 / 5, 3 / 10, 1 / 8, 1 / 5, 9 / 100, 1 / 10]
    ⟨by decide, by decide, by decide, by decide, by decide⟩
    (by decide) (by decide) hrlist htlist

/-- C1: build_path_by_segment resolves each (segment, ratio) through
ratio_to_angle and each thickness ratio to an absolute width by multiplying
by that segment's width, then delegates to build_path; consequently, for any
two gap sizes satisfying the layout precondition, the same by-segment inputs
produce paths connecting the same segments (origin = start index,
destination = end index, for both gaps) with the same relative thickness
ratios (width divided by segment width equals the given thickness, for both
gaps). -/
theorem by_segment_delegation_and_gap_invariance (n : ℕ) (gap1 gap2 : ℚ)
    (segs1 segs2 : List Segment)
    (hl1 : layout n gap1 = Except.ok segs1)
    (hl2 : layout n gap2 = Except.ok segs2)
    (ssi esi : ℕ) (hssi : ssi < n) (hesi : esi < n)
    (sr er st et : ℚ)
    (hsr : 0 ≤ sr ∧ sr ≤ 1) (her : 0 ≤ er ∧ er ≤ 1)
    (hst : 0 ≤ st) (het : 0 ≤ et)
    (hst1 : st * segWidth n gap1 < 360) (hst2 : st * segWidth n gap2 < 360)
    (het1 : et * segWidth n gap1 < 360) (het2 : et * segWidth n gap2 < 360) :
    (∃ sseg eseg sa ea,
      getSegment segs1 ssi = Except.ok sseg ∧
      getSegment segs1 esi = Except.ok eseg ∧
      ratio_to_angle sseg sr = Except.ok sa ∧
      ratio_to_angle eseg er = Except.ok ea ∧
      build_path_by_segment segs1 ssi esi sr er st et =
        build_path sa ea (st * sseg.width) (et * eseg.width)) ∧
    (∃ p1 p2,
      mkPathBySegAt segs1 ColorBy.default 1 0 ssi esi sr er st et =
        Except.ok p1 ∧
      mkPathBySegAt segs2 ColorBy.default 1 0 ssi esi sr er st et =
        Except.ok p2 ∧
      p1.origin = some ssi ∧ p2.origin = some ssi ∧
      p1.dest = some esi ∧ p2.dest = some esi ∧
      p1.start_width / segWidth n gap1 = st ∧
      p2.start_width / segWidth n gap2 = st ∧
      p1.end_width / segWidth n gap1 = et ∧
      p2.end_width / segWidth n gap2 = et) := by
  have hn : 0 < n := Nat.pos_of_ne_zero (by rintro rfl; exact Nat.not_lt_zero ssi hssi)
  have hw1 : 0 < segWidth n gap1 := segWidth_pos hn (layout_ok_elim hl1).1
  have hw2 : 0 < segWidth n gap2 := segWidth_pos hn (layout_ok_elim hl2).1
  constructor
  · refine ⟨mkSegment n gap1 ssi, mkSegment n gap1 esi, _, _,
      getSegment_layout hl1 hssi, getSegment_layout hl1 hesi,
      ratio_to_angle_ok hsr.1 hsr.2, ratio_to_angle_ok her.1 her.2, ?_⟩
    simp only [build_path_by_segment, getSegment_layout hl1 hssi,
      getSegment_layout hl1 hesi, exceptBind_ok,
      ratio_to_angle_ok hsr.1 hsr.2, ratio_to_angle_ok her.1 her.2]
  · obtain ⟨p1, hp1, ho1, hd1, hsw1, hew1⟩ := mkPathBySegAt_isOk
      ColorBy.default 1 0 hl1 hssi hesi
      hsr.1 hsr.2 her.1 her.2 hst hst1 het het1 trivial
    obtain ⟨p2, hp2, ho2, hd2, hsw2, hew2⟩ := mkPathBySegAt_isOk
      ColorBy.default 1 0 hl2 hssi hesi
      hsr.1 hsr.2 her.1 her.2 hst hst2 het het2 trivial
    refine ⟨p1, p2, hp1, hp2, ho1, ho2, hd1, hd2, ?_, ?_, ?_, ?_⟩
    · rw [hsw1, mul_div_assoc, div_self (ne_of_gt hw1), mul_one]
    · rw [hsw2, mul_div_assoc, div_self (ne_of_gt hw2), mul_one]
    · rw [hew1, mul_div_assoc, div_self (ne_of_gt hw1), mul_one]
    · rw [hew2, mul_div_assoc, div_self (ne_of_gt hw2), mul_one]

/-- C1 witness: the first path of the notebook's by-segment dataset
(segment 0 to segment 1, ratios 1.0, thicknesses 0.1 and 0.2) under
gap sizes 0 and 25 with n = 5. -/
theorem by_segment_delegation_witness :
    layout 5 0 = Except.ok ((List.range 5).map (mkSegment 5 0)) ∧
    layout 5 25 = Except.ok ((List.range 5).map (mkSegment 5 25)) ∧
    0 < 5 ∧ 1 < 5 ∧
    (∃ p1 p2,
      mkPathBySegAt ((List.range 5).map (mkSegment 5 0)) ColorBy.default 1 0
        0 1 1 1 (1 / 10) (1 / 5) = Except.ok p1 ∧
      mkPathBySegAt ((List.range 5).map (mkSegment 5 25)) ColorBy.default 1 0
        0 1 1 1 (1 / 10) (1 / 5) = Except.ok p2 ∧
      p1.origin = some 0 ∧ p2.origin = some 0 ∧
      p1.dest = some 1 ∧ p2.dest = some 1 ∧
      p1.start_width / segWidth 5 0 = 1 / 10 ∧
      p2.start_width / segWidth 5 25 = 1 / 10 ∧
      p1.end_width / segWidth 5 0 = 1 / 5 ∧
      p2.end_width / segWidth 5 25 = 1 / 5) := by
  have h1 : layout 5 0 = Except.ok ((List.range 5).map (mkSegment 5 0)) := by
    unfold layout
    norm_num
  have h2 : layout 5 25 = Except.ok ((List.range 5).map (mkSegment 5 25)) := by
    unfold layout
    norm_num
  refine ⟨h1, h2, by decide, by decide, ?_⟩
  exact (by_segment_delegation_and_gap_invariance 5 0 25 _ _ h1 h2 0 1
    (by decide) (by decide) 1 1 (1 / 10) (1 / 5)
    ⟨by norm_num, by norm_num⟩ ⟨by norm_num, by norm_num⟩
    (by norm_num) (by norm_num)
    (by norm_num [segWidth]) (by norm_num [segWidth])
    (by norm_num [segWidth]) (by norm_num [segWidth])).2

end Cyrcos
